import Mathlib

/-!
Verification of the a2a-registry core: the registration pipeline
(`AgentService`), the `AgentCard` validator (both generations present in the
repository), and the two storage backends (`JsonFileStore` and `SqliteStore`).

The embedding models JavaScript/TypeScript values and operations explicitly:

* JSON values (`Json`) are the parsed bodies produced by `JSON.parse`;
  numbers are carried as `Int` because the code never inspects a numeric
  value beyond `typeof` (no arithmetic is performed on document fields).
* `jsGet v k` is the member access `v[k]`; `none` plays the role of
  `undefined`.  `jsIn k v` is the `k in v` operator, `jsTypeof` the `typeof`
  operator, `jsTruthy` the boolean coercion `!!v`.
* Strings are processed through their character lists (`String.data`), which
  keeps every operation kernel-computable.
-/

/-- A JSON value as produced by `JSON.parse`.  Object fields keep their
textual order; `JSON.parse` never produces duplicate keys (the last wins),
so lookups read the first match. -/
inductive Json where
  | null
  | bool (b : Bool)
  | num (n : Int)
  | str (s : String)
  | arr (elems : List Json)
  | obj (fields : List (String × Json))
deriving Repr

/-- The JavaScript `typeof` operator on parsed JSON values (`typeof null`
is `"object"`, and arrays are objects). -/
def jsTypeof : Json → String
  | .null => "object"
  | .bool _ => "boolean"
  | .num _ => "number"
  | .str _ => "string"
  | .arr _ => "object"
  | .obj _ => "object"

/-- JavaScript truthiness of a parsed JSON value (`!!v`): `null`, `false`,
`0` and `""` are falsy, everything else truthy. -/
def jsTruthy : Json → Bool
  | .null => false
  | .bool b => b
  | .num n => !(n == 0)
  | .str s => !(s.data.isEmpty)
  | .arr _ => true
  | .obj _ => true

/-- `Array.isArray`. -/
def jsIsArray : Json → Bool
  | .arr _ => true
  | _ => false

/-- Decimal digits to a number, for array index access: `some n` when the
characters are a non-empty run of ASCII digits. -/
def decDigitsToNat? (l : List Char) : Option Nat :=
  if l.isEmpty then none
  else l.foldl (fun acc c => acc.bind fun n =>
    if c.isDigit then some (n * 10 + (c.toNat - 48)) else none) (some 0)

/-- The member access `v[k]`: field lookup on objects, index (or `length`)
access on arrays; `none` models `undefined`. -/
def jsGet (v : Json) (k : String) : Option Json :=
  match v with
  | .obj fields => fields.lookup k
  | .arr elems =>
    match decDigitsToNat? k.data with
    | some i => elems.get? i
    | none => if k == "length" then some (.num elems.length) else none
  | _ => none

/-- The `k in v` operator on object (or array) operands. -/
def jsIn (k : String) (v : Json) : Bool :=
  match v with
  | .obj fields => fields.any (fun f => f.1 == k)
  | .arr elems =>
    match decDigitsToNat? k.data with
    | some i => i < elems.length
    | none => k == "length"
  | _ => false

/-- Whether an accessed member is present and `null` (`v[k] === null`). -/
def isNullOpt : Option Json → Bool
  | some .null => true
  | _ => false

/-- The white-space characters removed by `String.prototype.trim` (ECMA-262
WhiteSpace and LineTerminator code points). -/
def jsIsWhitespaceChar (c : Char) : Bool :=
  c == ' ' || c == '\t' || c == '\n' || c == '\r' ||
  c == '\x0b' || c == '\x0c' || c == '\u00A0' || c == '\uFEFF' ||
  c == '\u1680' || ( '\u2000' ≤ c && c ≤ '\u200A') ||
  c == '\u2028' || c == '\u2029' || c == '\u202F' ||
  c == '\u205F' || c == '\u3000'

/-- `String.prototype.trim`. -/
def jsTrim (s : String) : String :=
  ⟨((s.data.dropWhile jsIsWhitespaceChar).reverse.dropWhile jsIsWhitespaceChar).reverse⟩

/-- `String.prototype.endsWith` (one argument). -/
def jsEndsWith (s suffixStr : String) : Bool :=
  suffixStr.data.isSuffixOf s.data

/-!
The WHATWG URL parser.  `isValidUrl` in `src/utils/validation.ts` is
`try { new URL(urlString); return true } catch { return false }`, so its
behaviour is that of the platform's WHATWG `URL` constructor (no base URL).
The model below follows the URL Standard's basic parser for the fragment of
inputs this development evaluates it on: input trimming, scheme parsing,
authority/host extraction and port checking.  Simplifications, each noted
in place: IPv4-shaped hosts, percent-encoding inside hosts and IPv6 address
syntax are not analysed beyond their delimiters, and `file:` hosts are
treated as opaque.  The decisive behaviours for this development — a URL
must have a scheme, special schemes (http, https, ws, wss, ftp) need a
non-empty host, and non-special schemes such as `mailto:` accept an opaque
path with no authority at all — are exactly the standard's. -/

/-- Tab and newline characters are removed from the input anywhere; leading
and trailing C0 controls and spaces are trimmed (URL Standard §4.4). -/
def urlPreprocess (l : List Char) : List Char :=
  (((l.filter (fun c => !(c == '\t' || c == '\n' || c == '\r'))).dropWhile
      (fun c => decide (c ≤ ' '))).reverse.dropWhile (fun c => decide (c ≤ ' '))).reverse

def asciiAlpha (c : Char) : Bool :=
  ('a' ≤ c && c ≤ 'z') || ('A' ≤ c && c ≤ 'Z')

/-- Characters allowed after the first position of a scheme. -/
def schemeChar (c : Char) : Bool :=
  asciiAlpha c || c.isDigit || c == '+' || c == '-' || c == '.'

/-- Accumulates scheme characters until the `:` terminator; `none` when the
input ends or a non-scheme character appears before any `:`. -/
def schemeSplitAux (acc : List Char) : List Char → Option (List Char × List Char)
  | [] => none
  | c :: cs =>
    if c == ':' then some (acc.reverse, cs)
    else if schemeChar c then schemeSplitAux (c :: acc) cs
    else none

/-- Splits `scheme:rest` off a URL; the scheme must start with an ASCII
letter.  `none` when the input has no valid scheme (parsing without a base
URL then fails). -/
def schemeSplit : List Char → Option (List Char × List Char)
  | [] => none
  | c :: cs => if asciiAlpha c then schemeSplitAux [c] cs else none

def lowerChars (l : List Char) : List Char := l.map Char.toLower

/-- The special schemes that require an authority (URL Standard §4.2);
`file` is special too but allows an empty host and is handled apart. -/
def isSpecialScheme (sch : List Char) : Bool :=
  sch == "http".data || sch == "https".data || sch == "ws".data ||
  sch == "wss".data || sch == "ftp".data

/-- Forbidden host code points (URL Standard §3.5). -/
def forbiddenHostChar (c : Char) : Bool :=
  c == '\x00' || c == '\t' || c == '\n' || c == '\r' || c == ' ' ||
  c == '#' || c == '/' || c == ':' || c == '<' || c == '>' ||
  c == '?' || c == '@' || c == '[' || c == '\\' || c == ']' ||
  c == '^' || c == '|'

/-- Forbidden domain code points: the forbidden host code points plus C0
controls, `%` and U+007F. -/
def forbiddenDomainChar (c : Char) : Bool :=
  forbiddenHostChar c || decide (c ≤ '\x1f') || c == '%' || c == '\x7f'

/-- The authority run: everything up to the first `/`, `\`, `?` or `#`. -/
def takeAuthority (l : List Char) : List Char :=
  l.takeWhile (fun c => !(c == '/' || c == '\\' || c == '?' || c == '#'))

/-- Drops the userinfo: the host-port part is what follows the last `@` of
the authority (the whole authority when there is none). -/
def afterLastAt (l : List Char) : List Char :=
  (l.reverse.takeWhile (fun c => !(c == '@'))).reverse

/-- A port is valid when empty or a run of ASCII digits valued at most
65535. -/
def portOk (l : List Char) : Bool :=
  l.all Char.isDigit && (decDigitsToNat? l).getD 0 ≤ 65535

/-- Host validity: domains (special schemes) must be non-empty and avoid the
forbidden domain code points; opaque hosts (non-special schemes) may be
empty and must avoid the forbidden host code points.  IPv4 syntax inside a
domain is not analysed further. -/
def hostOk (special : Bool) (host : List Char) : Bool :=
  if special then !host.isEmpty && host.all (fun c => !(forbiddenDomainChar c))
  else host.all (fun c => !(forbiddenHostChar c))

/-- Splits an optional `:port` off the host-port part and checks both; a
leading `[` starts an IPv6 literal, checked only for its closing `]`. -/
def hostPortOk (special : Bool) (hostport : List Char) : Bool :=
  match hostport with
  | '[' :: rest =>
    rest.any (fun c => c == ']') &&
    (let afterBracket := (rest.dropWhile (fun c => !(c == ']'))).tail
     afterBracket.isEmpty ||
       (afterBracket.head? == some ':' && portOk afterBracket.tail))
  | _ =>
    let host := hostport.takeWhile (fun c => !(c == ':'))
    let rest := hostport.dropWhile (fun c => !(c == ':'))
    hostOk special host && (rest.isEmpty || portOk rest.tail)

/-- Whether `new URL(s)` (no base URL) succeeds, per the WHATWG URL
Standard as restricted above.  Special schemes skip any run of leading `/`
or `\` and then require a valid non-empty host; `file:` takes an optional
host; any other scheme takes an authority only after a literal `//`, and
otherwise parses the rest as an opaque path, which always succeeds. -/
def newUrlOk (s : String) : Bool :=
  let input := urlPreprocess s.data
  match schemeSplit input with
  | none => false
  | some (schRaw, rest) =>
    let sch := lowerChars schRaw
    if isSpecialScheme sch then
      let afterSlashes := rest.dropWhile (fun c => c == '/' || c == '\\')
      hostPortOk true (afterLastAt (takeAuthority afterSlashes))
    else if sch == "file".data then
      let afterSlashes := rest.dropWhile (fun c => c == '/' || c == '\\')
      let hp := afterLastAt (takeAuthority afterSlashes)
      hp.isEmpty || hostPortOk false hp
    else
      match rest with
      | '/' :: '/' :: rest2 => hostPortOk false (afterLastAt (takeAuthority rest2))
      | _ => true

/-- `isValidUrl` from `src/utils/validation.ts` (identical in both
generations): `try { new URL(urlString); return true } catch { return
false }`. -/
def isValidUrl (urlString : String) : Bool := newUrlOk urlString

/-- Whether a URL string carries an authority component: special schemes
always do, any other scheme only after a literal `//`.  Used to state what
"scheme + authority at minimum" would require. -/
def urlHasAuthority (s : String) : Bool :=
  match schemeSplit (urlPreprocess s.data) with
  | none => false
  | some (schRaw, rest) =>
    isSpecialScheme (lowerChars schRaw) ||
    (match rest with
     | '/' :: '/' :: _ => true
     | _ => false)

/-- The path component of a hierarchical URL: what follows the authority,
up to the query or fragment (WHATWG terms).  Only used to state C1, whose
spec sentence speaks of "the input URL's path". -/
def urlPath (s : String) : String :=
  match schemeSplit (urlPreprocess s.data) with
  | none => ""
  | some (_, rest) =>
    let afterSlashes := rest.dropWhile (fun c => c == '/' || c == '\\')
    let afterAuthority := afterSlashes.dropWhile
      (fun c => !(c == '/' || c == '\\' || c == '?' || c == '#'))
    ⟨afterAuthority.takeWhile (fun c => !(c == '?' || c == '#'))⟩

/-!
URL resolution: `AgentService.determineAgentCardUrl`.
-/

/-- `url.replace(/\/$/, '')`: remove one trailing slash when present (the
anchored regex matches at most once, at the very end). -/
def replaceTrailingSlash (url : String) : String :=
  if jsEndsWith url "/" then ⟨url.data.dropLast⟩ else url

/-- `AgentService.determineAgentCardUrl`: a URL ending in `.json` is used
directly; otherwise one trailing slash is removed and
`/.well-known/agent-card.json` is appended. -/
def determineAgentCardUrl (url : String) : String :=
  if jsEndsWith url ".json" then url
  else replaceTrailingSlash url ++ "/.well-known/agent-card.json"

/-- The URL Resolution Rule as the spec words it, with the suffix test read
on the whole URL string (the amendment C1 forces): if the URL ends with the
literal `.json` it is the fetch target unchanged; otherwise exactly one
trailing `/` is stripped if present and the literal
`/.well-known/agent-card.json` is appended; nothing else changes. -/
def resolveRuleSpec (u : String) : String :=
  if jsEndsWith u ".json" then u
  else (if u.data.getLast? == some '/' then ⟨u.data.dropLast⟩ else u) ++
    "/.well-known/agent-card.json"

/-!
The validator.  The repository carries two generations of
`src/utils/validation.ts`; both export `validateAgentCard (data: unknown)`,
which throws `InvalidAgentCardError(message)` on the first failed check.
Each generation is transcribed check for check below (namespaces `Gen1` and
`Gen2`), returning `Except String Unit` with the thrown message as the
error.  The two generations share every check except `capabilities` (Gen1
demands an array, Gen2 a non-null non-array object) and the per-skill
checks, which only Gen2 performs.
-/

/-- The eight required top-level fields, in source order. -/
def requiredFields : List String :=
  ["name", "description", "url", "version", "capabilities",
   "defaultInputModes", "defaultOutputModes", "skills"]

/-- `if (!data || typeof data !== 'object') throw` — the first check of both
generations. -/
def checkIsObject (data : Json) : Except String Unit :=
  if !(jsTruthy data) || !(jsTypeof data == "object") then
    .error "AgentCard must be an object"
  else .ok ()

/-- The required-fields loop: `!(field in card) || card[field] === undefined
|| card[field] === null` throws `Missing required field: <field>`. -/
def checkRequired (card : Json) : List String → Except String Unit
  | [] => .ok ()
  | f :: rest =>
    if !(jsIn f card) || (jsGet card f).isNone || isNullOpt (jsGet card f) then
      .error ("Missing required field: " ++ f)
    else checkRequired card rest

/-- `typeof card.name !== 'string' || card.name.trim().length === 0`. -/
def checkName (card : Json) : Except String Unit :=
  match jsGet card "name" with
  | some (.str s) =>
    if (jsTrim s).data.length == 0 then .error "name must be a non-empty string"
    else .ok ()
  | _ => .error "name must be a non-empty string"

/-- `typeof card.description !== 'string'`. -/
def checkDescription (card : Json) : Except String Unit :=
  match jsGet card "description" with
  | some (.str _) => .ok ()
  | _ => .error "description must be a string"

/-- `typeof card.url !== 'string' || !isValidUrl(card.url)`. -/
def checkUrl (card : Json) : Except String Unit :=
  match jsGet card "url" with
  | some (.str s) =>
    if !(isValidUrl s) then .error "url must be a valid URL string" else .ok ()
  | _ => .error "url must be a valid URL string"

/-- `typeof card.version !== 'string'`. -/
def checkVersion (card : Json) : Except String Unit :=
  match jsGet card "version" with
  | some (.str _) => .ok ()
  | _ => .error "version must be a string"

/-- `!Array.isArray(card.defaultInputModes)`. -/
def checkDefaultInputModes (card : Json) : Except String Unit :=
  match jsGet card "defaultInputModes" with
  | some (.arr _) => .ok ()
  | _ => .error "defaultInputModes must be an array"

/-- `!Array.isArray(card.defaultOutputModes)`. -/
def checkDefaultOutputModes (card : Json) : Except String Unit :=
  match jsGet card "defaultOutputModes" with
  | some (.arr _) => .ok ()
  | _ => .error "defaultOutputModes must be an array"

/-- `!Array.isArray(card.skills)`. -/
def checkSkillsArray (card : Json) : Except String Unit :=
  match jsGet card "skills" with
  | some (.arr _) => .ok ()
  | _ => .error "skills must be an array"

/-- `'protocolVersion' in card && typeof card.protocolVersion !== 'string'`. -/
def checkProtocolVersion (card : Json) : Except String Unit :=
  if jsIn "protocolVersion" card then
    match jsGet card "protocolVersion" with
    | some (.str _) => .ok ()
    | _ => .error "protocolVersion must be a string"
  else .ok ()

/-- `'preferredTransport' in card && typeof card.preferredTransport !==
'string'`. -/
def checkPreferredTransport (card : Json) : Except String Unit :=
  if jsIn "preferredTransport" card then
    match jsGet card "preferredTransport" with
    | some (.str _) => .ok ()
    | _ => .error "preferredTransport must be a string"
  else .ok ()

/-- `'iconUrl' in card && card.iconUrl !== null && typeof card.iconUrl !==
'string'`. -/
def checkIconUrl (card : Json) : Except String Unit :=
  if jsIn "iconUrl" card then
    match jsGet card "iconUrl" with
    | some .null => .ok ()
    | some (.str _) => .ok ()
    | _ => .error "iconUrl must be a string or null"
  else .ok ()

namespace Gen1

/-- First generation only: `!Array.isArray(card.capabilities)` throws
`capabilities must be an array` (the check sits inside the source's
`// Array validations` block, next to the three genuine array fields). -/
def checkCapabilities (card : Json) : Except String Unit :=
  match jsGet card "capabilities" with
  | some (.arr _) => .ok ()
  | _ => .error "capabilities must be an array"

/-- First-generation `validateAgentCard`: the checks in source order; the
first failure is the thrown `InvalidAgentCardError`. -/
def validateAgentCard (data : Json) : Except String Unit := do
  checkIsObject data
  checkRequired data requiredFields
  checkName data
  checkDescription data
  checkUrl data
  checkVersion data
  checkCapabilities data
  checkDefaultInputModes data
  checkDefaultOutputModes data
  checkSkillsArray data
  checkProtocolVersion data
  checkPreferredTransport data
  checkIconUrl data

end Gen1

namespace Gen2

/-- Second generation: `typeof card.capabilities !== 'object' ||
card.capabilities === null || Array.isArray(card.capabilities)` throws
`capabilities must be an object` — only a non-null, non-array object
passes. -/
def checkCapabilities (card : Json) : Except String Unit :=
  match jsGet card "capabilities" with
  | some (.obj _) => .ok ()
  | _ => .error "capabilities must be an object"

/-- The four required fields of a skill entry, in source order. -/
def requiredSkillFields : List String := ["id", "name", "description", "tags"]

/-- The per-skill required-fields loop: `!(field in skillObj)` throws. -/
def checkSkillRequired (skill : Json) : List String → Except String Unit
  | [] => .ok ()
  | f :: rest =>
    if !(jsIn f skill) then .error ("Skill is missing required field: " ++ f)
    else checkSkillRequired skill rest

/-- One iteration of the `for (const skill of card.skills)` loop. -/
def checkSkill (skill : Json) : Except String Unit := do
  if !(jsTruthy skill) || !(jsTypeof skill == "object") then
    Except.error "Each skill must be an object"
  else Except.ok ()
  checkSkillRequired skill requiredSkillFields
  match jsGet skill "id" with
  | some (.str _) => Except.ok ()
  | _ => Except.error "Skill id must be a string"
  match jsGet skill "name" with
  | some (.str _) => Except.ok ()
  | _ => Except.error "Skill name must be a string"
  match jsGet skill "description" with
  | some (.str _) => Except.ok ()
  | _ => Except.error "Skill description must be a string"
  match jsGet skill "tags" with
  | some (.arr _) => Except.ok ()
  | _ => Except.error "Skill tags must be an array"
  if jsIn "examples" skill then
    match jsGet skill "examples" with
    | some (.arr _) => Except.ok ()
    | _ => Except.error "Skill examples must be an array when provided"
  else Except.ok ()
  if jsIn "inputModes" skill then
    match jsGet skill "inputModes" with
    | some (.arr _) => Except.ok ()
    | _ => Except.error "Skill inputModes must be an array when provided"
  else Except.ok ()
  if jsIn "outputModes" skill then
    match jsGet skill "outputModes" with
    | some (.arr _) => Except.ok ()
    | _ => Except.error "Skill outputModes must be an array when provided"
  else Except.ok ()

/-- The skill loop over the elements of `card.skills`. -/
def checkSkillList : List Json → Except String Unit
  | [] => .ok ()
  | s :: rest => do
    checkSkill s
    checkSkillList rest

/-- Runs the skill loop on `card.skills`; the preceding `Array.isArray`
check has already ensured the field is an array, so the fall-through case
is unreachable when called from `validateAgentCard`. -/
def checkSkills (card : Json) : Except String Unit :=
  match jsGet card "skills" with
  | some (.arr elems) => checkSkillList elems
  | _ => .ok ()

/-- Second-generation `validateAgentCard` (the generation `AgentService`
imports): the checks in source order; the first failure is the thrown
`InvalidAgentCardError`. -/
def validateAgentCard (data : Json) : Except String Unit := do
  checkIsObject data
  checkRequired data requiredFields
  checkName data
  checkDescription data
  checkUrl data
  checkVersion data
  checkCapabilities data
  checkDefaultInputModes data
  checkDefaultOutputModes data
  checkSkillsArray data
  checkSkills data
  checkProtocolVersion data
  checkPreferredTransport data
  checkIconUrl data

end Gen2

/-- A concrete skill entry with the four required fields. -/
def sampleSkill : Json :=
  .obj [("id", .str "skill-1"), ("name", .str "Translate"),
        ("description", .str "Translates text"), ("tags", .arr [.str "nlp"])]

/-- A concrete, fully valid agent document named `n` (valid for the second
generation: `capabilities` is an object). -/
def docNamed (n : String) : Json :=
  .obj [("name", .str n),
        ("description", .str "A test agent"),
        ("url", .str "https://example.com/agents"),
        ("version", .str "1.0.0"),
        ("capabilities", .obj [("streaming", .bool true)]),
        ("defaultInputModes", .arr [.str "text/plain"]),
        ("defaultOutputModes", .arr [.str "text/plain"]),
        ("skills", .arr [sampleSkill])]

/-!
Storage backends.  The `Store` interface (declared in `src/types/index.ts`)
is implemented twice: `JsonFileStore` keeps a `Map<string, AgentCard>` in
memory and rewrites its JSON file on every mutation, `SqliteStore` keeps a
single table `agents(name TEXT PRIMARY KEY, agent_card TEXT NOT NULL)`.

Modelling decisions:

* An `AgentCard` after validation is a JSON document whose `name` and `url`
  fields are strings; the structure below carries the two fields the code
  reads (`agentCard.name`, `existingAgent.url`) together with the whole
  document.
* `JsonFileStore`'s observable state is its in-memory map (an
  insertion-ordered association list, as a JS `Map` iterates); `persist`
  writes the same data through to disk and `initialize` reloads it, so the
  file adds no observable state of its own within one process.
* `SqliteStore`'s table is an association list of rows; the `agent_card`
  TEXT column is modelled by the card it encodes, `JSON.stringify` and
  `JSON.parse` being mutually inverse on values that themselves came from
  `JSON.parse`.  `INSERT` appends; a duplicate primary key raises the
  UNIQUE-constraint error, which `createAgent` pattern-matches and re-raises
  as `AgentAlreadyExistsError`; `UPDATE`/`DELETE` report `changes`, the
  number of matched rows.
-/

/-- A validated agent document: the `name` and `url` fields the pipeline
reads, plus the full document. -/
structure AgentCard where
  name : String
  url : String
  card : Json

/-- The error a backend's `createAgent` raises on a name collision
(`AgentAlreadyExistsError`). -/
inductive StoreErr where
  | alreadyExists (name : String)

/-- The state of either backend: name-keyed rows in storage order. -/
abbrev Agents := List (String × AgentCard)

namespace JsonFileStore

/-- `this.agents.get(name) ?? null`. -/
def getAgent (agents : Agents) (name : String) : Option AgentCard :=
  agents.lookup name

/-- `this.agents.has(name)`. -/
def hasAgent (agents : Agents) (name : String) : Bool :=
  (agents.lookup name).isSome

/-- `Map.set`: a present key keeps its position and gets the new value (a
`Map` key occurs at most once, so the rewrite touches at most one entry);
an absent key is appended. -/
def mapSet (agents : Agents) (name : String) (card : AgentCard) : Agents :=
  if hasAgent agents name then
    agents.map (fun p => if p.1 == name then (p.1, card) else p)
  else agents ++ [(name, card)]

/-- `createAgent`: throws `AgentAlreadyExistsError` when the name is
already present (before any write), else stores and persists. -/
def createAgent (agents : Agents) (card : AgentCard) :
    Except StoreErr AgentCard × Agents :=
  if hasAgent agents card.name then (.error (.alreadyExists card.name), agents)
  else (.ok card, mapSet agents card.name card)

/-- `updateAgent` (the replace-if-present operation): `null` when the name
is absent, else fully replaces the stored value. -/
def updateAgent (agents : Agents) (name : String) (card : AgentCard) :
    Option AgentCard × Agents :=
  if !(hasAgent agents name) then (none, agents)
  else (some card, mapSet agents name card)

/-- `deleteAgent`: `false` (and no write) when the name is absent, else
removes the entry (`Map.delete` — a key occurs at most once) and reports
`true`. -/
def deleteAgent (agents : Agents) (name : String) : Bool × Agents :=
  if !(hasAgent agents name) then (false, agents)
  else (true, agents.filter (fun p => !(p.1 == name)))

/-- `listAgents`: `Array.from(this.agents.values())`. -/
def listAgents (agents : Agents) : List AgentCard :=
  agents.map (fun p => p.2)

end JsonFileStore

namespace SqliteStore

/-- `SELECT agent_card FROM agents WHERE name = ?` via `.get`: the first
matching row, parsed; `null` when there is none. -/
def getAgent (table : Agents) (name : String) : Option AgentCard :=
  table.lookup name

/-- `INSERT INTO agents (name, agent_card) VALUES (?, ?)`: a row whose
primary key is already present violates the UNIQUE constraint, which the
source pattern-matches (`UNIQUE constraint failed`) and re-raises as
`AgentAlreadyExistsError`; otherwise the row is appended. -/
def createAgent (table : Agents) (card : AgentCard) :
    Except StoreErr AgentCard × Agents :=
  if table.any (fun r => r.1 == card.name) then
    (.error (.alreadyExists card.name), table)
  else (.ok card, table ++ [(card.name, card)])

/-- `UPDATE agents SET agent_card = ? WHERE name = ?`: every matching row
is rewritten in place and `changes` counts them; `changes === 0` yields
`null`. -/
def updateAgent (table : Agents) (name : String) (card : AgentCard) :
    Option AgentCard × Agents :=
  let changes := table.countP (fun r => r.1 == name)
  if changes == 0 then (none, table)
  else (some card, table.map (fun r => if r.1 == name then (r.1, card) else r))

/-- `DELETE FROM agents WHERE name = ?`: every matching row is removed and
the call reports `changes > 0`. -/
def deleteAgent (table : Agents) (name : String) : Bool × Agents :=
  let changes := table.countP (fun r => r.1 == name)
  (decide (changes > 0), table.filter (fun r => !(r.1 == name)))

/-- `SELECT agent_card FROM agents` with each row parsed. -/
def listAgents (table : Agents) : List AgentCard :=
  table.map (fun r => r.2)

end SqliteStore

/-- One operation of the shared backend contract, as C6 fixes the sequence
(`list()` is excluded there, its ordering being unspecified). -/
inductive StoreOp where
  | create (card : AgentCard)
  | get (name : String)
  | replace (name : String) (card : AgentCard)
  | delete (name : String)

/-- The outcome C6 compares at each step: success or `AlreadyExists` from
create, presence from get and replace, the boolean from delete. -/
inductive OpOutcome where
  | createOk
  | createExists (name : String)
  | got (present : Bool)
  | replaced (present : Bool)
  | deleted (removed : Bool)

/-- The key a mutating operation touches (`D.name` for create, `N`
otherwise); `get` is read-only and keyed likewise. -/
def StoreOp.key : StoreOp → String
  | .create card => card.name
  | .get name => name
  | .replace name _ => name
  | .delete name => name

/-- One step of the file-backed store. -/
def JsonFileStore.step (agents : Agents) : StoreOp → OpOutcome × Agents
  | .create card =>
    match JsonFileStore.createAgent agents card with
    | (.ok _, s) => (.createOk, s)
    | (.error (.alreadyExists n), s) => (.createExists n, s)
  | .get name => (.got (JsonFileStore.getAgent agents name).isSome, agents)
  | .replace name card =>
    let (r, s) := JsonFileStore.updateAgent agents name card
    (.replaced r.isSome, s)
  | .delete name =>
    let (b, s) := JsonFileStore.deleteAgent agents name
    (.deleted b, s)

/-- One step of the database-backed store. -/
def SqliteStore.step (table : Agents) : StoreOp → OpOutcome × Agents
  | .create card =>
    match SqliteStore.createAgent table card with
    | (.ok _, s) => (.createOk, s)
    | (.error (.alreadyExists n), s) => (.createExists n, s)
  | .get name => (.got (SqliteStore.getAgent table name).isSome, table)
  | .replace name card =>
    let (r, s) := SqliteStore.updateAgent table name card
    (.replaced r.isSome, s)
  | .delete name =>
    let (b, s) := SqliteStore.deleteAgent table name
    (.deleted b, s)

/-- Runs a fixed operation sequence against the file-backed store,
collecting the outcome of every step. -/
def JsonFileStore.run (agents : Agents) : List StoreOp → List OpOutcome × Agents
  | [] => ([], agents)
  | op :: ops =>
    let (o, s) := JsonFileStore.step agents op
    let (os, s') := JsonFileStore.run s ops
    (o :: os, s')

/-- Runs a fixed operation sequence against the database-backed store,
collecting the outcome of every step. -/
def SqliteStore.run (table : Agents) : List StoreOp → List OpOutcome × Agents
  | [] => ([], table)
  | op :: ops =>
    let (o, s) := SqliteStore.step table op
    let (os, s') := SqliteStore.run s ops
    (o :: os, s')

/-- The keys of a store state, for the uniqueness invariant. -/
def keysOf (agents : Agents) : List String :=
  agents.map (fun p => p.1)

/-!
The registration pipeline: `AgentService` (`src/services/AgentService.ts`).
`AgentService` is written against the `Store` interface, so its operations
are modelled over an arbitrary implementation of that interface.  The
outbound HTTP GET is the environment: a function from the resolved URL to
either a parsed JSON body (a 200 response) or a failure cause.  Each
operation also returns the list of URLs it fetched, so that "no fetch
occurs" is part of the observable result.
-/

/-- The `Store` interface of `src/types/index.ts`, as a record of the five
operations over a backend state `σ`. -/
structure StoreImpl (σ : Type) where
  listAgents : σ → List AgentCard
  getAgent : σ → String → Option AgentCard
  createAgent : σ → AgentCard → Except StoreErr AgentCard × σ
  updateAgent : σ → String → AgentCard → Option AgentCard × σ
  deleteAgent : σ → String → Bool × σ

/-- The file-backed implementation of the interface. -/
def fileImpl : StoreImpl Agents :=
  ⟨JsonFileStore.listAgents, JsonFileStore.getAgent, JsonFileStore.createAgent,
   JsonFileStore.updateAgent, JsonFileStore.deleteAgent⟩

/-- The database-backed implementation of the interface. -/
def sqliteImpl : StoreImpl Agents :=
  ⟨SqliteStore.listAgents, SqliteStore.getAgent, SqliteStore.createAgent,
   SqliteStore.updateAgent, SqliteStore.deleteAgent⟩

/-- The error taxonomy `AgentService` raises: `AgentFetchError` (resolved
URL and cause), `InvalidAgentCardError` (message), and the backend's
`AgentAlreadyExistsError`. -/
inductive ServiceError where
  | fetchError (url : String) (cause : String)
  | invalidCard (message : String)
  | alreadyExists (name : String)

/-- The outcome of the single HTTP GET against a resolved URL: the parsed
200 body, or the failure cause the `catch` block would report. -/
abbrev FetchEnv := String → Except String Json

/-- The typed field access `agentCard.name` on a validated document. -/
def cardNameOf (data : Json) : String :=
  match jsGet data "name" with
  | some (.str s) => s
  | _ => ""

/-- The typed field access `agentCard.url` on a validated document. -/
def cardUrlOf (data : Json) : String :=
  match jsGet data "url" with
  | some (.str s) => s
  | _ => ""

/-- A validated JSON document as the `AgentCard` the rest of the pipeline
handles. -/
def mkAgentCard (data : Json) : AgentCard :=
  ⟨cardNameOf data, cardUrlOf data, data⟩

/-- `AgentService.fetchAgentCard`: resolve the URL, GET it, validate the
body with the (second-generation) validator; validation failures pass
through as `InvalidAgentCardError`, everything else becomes
`AgentFetchError` carrying the resolved URL. -/
def AgentService.fetchAgentCard (env : FetchEnv) (url : String) :
    Except ServiceError AgentCard :=
  let agentCardUrl := determineAgentCardUrl url
  match env agentCardUrl with
  | .error cause => .error (.fetchError agentCardUrl cause)
  | .ok data =>
    match Gen2.validateAgentCard data with
    | .error msg => .error (.invalidCard msg)
    | .ok () => .ok (mkAgentCard data)

/-- `AgentService.updateAgent` over an arbitrary `Store` implementation.
Returns the call's result, the backend state afterwards, and the list of
URLs fetched.  Absent name: `null` at once, nothing fetched.  Fetch target:
the caller's `url` if given (`url ?? existingAgent.url`), else the stored
document's `url`.  A fetched document whose `name` differs from the `name`
parameter is rejected as `InvalidAgentCardError` before any write. -/
def AgentService.updateAgent {σ : Type} (impl : StoreImpl σ) (env : FetchEnv)
    (s : σ) (name : String) (url : Option String) :
    Except ServiceError (Option AgentCard) × σ × List String :=
  match impl.getAgent s name with
  | none => (.ok none, s, [])
  | some existingAgent =>
    let fetchUrl := url.getD existingAgent.url
    let resolved := determineAgentCardUrl fetchUrl
    match AgentService.fetchAgentCard env fetchUrl with
    | .error e => (.error e, s, [resolved])
    | .ok agentCard =>
      if agentCard.name ≠ name then
        (.error (.invalidCard ("Cannot update agent \x27" ++ name ++
          "\x27: fetched AgentCard has different name \x27" ++
          agentCard.name ++ "\x27")), s, [resolved])
      else
        let (r, s') := impl.updateAgent s name agentCard
        (.ok r, s', [resolved])

/-- `AgentService.registerAgent`: fetch, validate, then create-if-absent. -/
def AgentService.registerAgent {σ : Type} (impl : StoreImpl σ) (env : FetchEnv)
    (s : σ) (url : String) :
    Except ServiceError AgentCard × σ × List String :=
  let resolved := determineAgentCardUrl url
  match AgentService.fetchAgentCard env url with
  | .error e => (.error e, s, [resolved])
  | .ok agentCard =>
    match impl.createAgent s agentCard with
    | (.ok c, s') => (.ok c, s', [resolved])
    | (.error (.alreadyExists n), s') => (.error (.alreadyExists n), s', [resolved])

/-- The concrete stored card used by the witnesses. -/
def cardAlpha : AgentCard := mkAgentCard (docNamed "alpha")

/-- A concrete store state holding exactly `cardAlpha`. -/
def storeAlpha : Agents := [("alpha", cardAlpha)]

/-- The second concrete card, named `beta`. -/
def cardBeta : AgentCard := mkAgentCard (docNamed "beta")

/-- A concrete document identical to `docNamed "test-agent"` except that
`capabilities` is an array — valid for the first-generation validator,
invalid for the second. -/
def docCapsArray : Json :=
  .obj [("name", .str "test-agent"),
        ("description", .str "A test agent"),
        ("url", .str "https://example.com/agents"),
        ("version", .str "1.0.0"),
        ("capabilities", .arr [.str "streaming"]),
        ("defaultInputModes", .arr [.str "text/plain"]),
        ("defaultOutputModes", .arr [.str "text/plain"]),
        ("skills", .arr [sampleSkill])]

/-- A document fully valid for the second-generation validator whose `url`
is `mailto:user@example.com`, a URL with a scheme but no authority. -/
def docMailto : Json :=
  .obj [("name", .str "mail-agent"),
        ("description", .str "A mail agent"),
        ("url", .str "mailto:user@example.com"),
        ("version", .str "1.0.0"),
        ("capabilities", .obj []),
        ("defaultInputModes", .arr []),
        ("defaultOutputModes", .arr []),
        ("skills", .arr [])]

/-!
Sanity evaluations: the embedded definitions compute on the spec's own
literal examples.
-/

example : determineAgentCardUrl "https://example.com" =
    "https://example.com/.well-known/agent-card.json" := rfl

example : determineAgentCardUrl "https://example.com/my-agent/" =
    "https://example.com/my-agent/.well-known/agent-card.json" := rfl

example : isValidUrl "mailto:user@example.com" = true := rfl

example : isValidUrl "not-a-url" = false := rfl

example : isValidUrl "https://example.com/agents" = true := rfl

example : isValidUrl "https://" = false := rfl

example : urlPath "https://example.com/agent.json?v=2" = "/agent.json" := rfl

example : Gen2.validateAgentCard (docNamed "alpha") = .ok () := rfl

example : Gen1.validateAgentCard (docNamed "alpha") =
    .error "capabilities must be an array" := rfl

example : AgentService.updateAgent fileImpl (fun _ => .ok (docNamed "beta"))
    storeAlpha "alpha" none =
    (.error (.invalidCard "Cannot update agent \x27alpha\x27: fetched AgentCard has different name \x27beta\x27"),
     storeAlpha,
     ["https://example.com/agents/.well-known/agent-card.json"]) := rfl

/-!
Association-list lemmas used by the storage proofs.  Keys are compared with
`==` on `String`, which is lawful, so lookups, `any`, `countP` and `filter`
over the key can be related to one another.
-/

theorem lookup_isSome_eq_any {β : Type} (l : List (String × β)) (k : String) :
    (l.lookup k).isSome = l.any (fun p => p.1 == k) := by
  induction l with
  | nil => rfl
  | cons h t ih =>
    obtain ⟨a, b⟩ := h
    cases hka : (k == a) with
    | true =>
      have hk := beq_iff_eq.mp hka
      subst hk
      simp [List.lookup]
    | false =>
      have hne := beq_eq_false_iff_ne.mp hka
      simp [List.lookup, hka, beq_false_of_ne (fun e => hne e.symm), ih]

theorem lookup_none_iff {β : Type} (l : List (String × β)) (k : String) :
    l.lookup k = none ↔ ∀ p ∈ l, ¬(p.1 = k) := by
  induction l with
  | nil => simp [List.lookup]
  | cons h t ih =>
    obtain ⟨a, b⟩ := h
    cases hka : (k == a) with
    | true =>
      have hk := beq_iff_eq.mp hka
      subst hk
      simp [List.lookup]
    | false =>
      have hne := beq_eq_false_iff_ne.mp hka
      simp only [List.lookup, hka, List.mem_cons, ih]
      constructor
      · intro hall p hp
        rcases hp with hp | hp
        · subst hp; exact fun e => hne e.symm
        · exact hall p hp
      · intro hall p hp
        exact hall p (Or.inr hp)

theorem countP_key_eq_zero_iff {β : Type} (l : List (String × β)) (k : String) :
    l.countP (fun p => p.1 == k) = 0 ↔ l.lookup k = none := by
  rw [List.countP_eq_zero, lookup_none_iff]
  simp

theorem filter_ne_of_absent {β : Type} (l : List (String × β)) (k : String)
    (h : l.lookup k = none) : l.filter (fun p => !(p.1 == k)) = l := by
  rw [List.filter_eq_self]
  intro p hp
  simp only [Bool.not_eq_true']
  exact beq_false_of_ne ((lookup_none_iff l k).mp h p hp)

theorem lookup_append_single_self {β : Type} (l : List (String × β)) (k : String) (v : β)
    (h : l.lookup k = none) : (l ++ [(k, v)]).lookup k = some v := by
  induction l with
  | nil => simp [List.lookup]
  | cons hd t ih =>
    obtain ⟨a, b⟩ := hd
    cases hka : (k == a) with
    | true =>
      rw [List.lookup, hka] at h
      cases h
    | false =>
      rw [List.lookup, hka] at h
      simp only [List.cons_append, List.lookup, hka]
      exact ih h

theorem lookup_append_single_ne {β : Type} (l : List (String × β)) (k m : String) (v : β)
    (h : m ≠ k) : (l ++ [(k, v)]).lookup m = l.lookup m := by
  induction l with
  | nil => simp [List.lookup, beq_false_of_ne h]
  | cons hd t ih =>
    obtain ⟨a, b⟩ := hd
    simp only [List.cons_append, List.lookup]
    cases hma : (m == a) with
    | true => rfl
    | false => exact ih

theorem lookup_map_set_ne {β : Type} (l : List (String × β)) (k m : String) (v : β)
    (h : m ≠ k) :
    (l.map (fun p => if p.1 == k then (p.1, v) else p)).lookup m = l.lookup m := by
  induction l with
  | nil => rfl
  | cons hd t ih =>
    obtain ⟨a, b⟩ := hd
    simp only [List.map]
    cases hak : (a == k) with
    | true =>
      rw [if_pos rfl]
      have ha := beq_iff_eq.mp hak
      subst ha
      simp only [List.lookup, beq_false_of_ne h, ih]
    | false =>
      rw [if_neg Bool.false_ne_true]
      simp only [List.lookup]
      cases hma : (m == a) with
      | true => rfl
      | false => exact ih

theorem lookup_filter_ne {β : Type} (l : List (String × β)) (k m : String)
    (h : m ≠ k) :
    (l.filter (fun p => !(p.1 == k))).lookup m = l.lookup m := by
  induction l with
  | nil => rfl
  | cons hd t ih =>
    obtain ⟨a, b⟩ := hd
    cases hak : (a == k) with
    | true =>
      have ha := beq_iff_eq.mp hak
      subst ha
      simp only [List.filter, hak, Bool.not_true]
      simp only [List.lookup, beq_false_of_ne h, ih]
    | false =>
      simp only [List.filter, hak, Bool.not_false]
      simp only [List.lookup]
      cases hma : (m == a) with
      | true => rfl
      | false => exact ih

/-!
Backend agreement, stepwise: from equal states, both implementations
produce the same outcome and equal states again.  The interesting content
is that `Map.has`-driven branching (file store) and `changes`-count-driven
branching (database store) coincide.
-/

/-- From the same rows, the two backends take the same step. -/
theorem step_agree (s : Agents) (op : StoreOp) :
    JsonFileStore.step s op = SqliteStore.step s op := by
  cases op with
  | create card =>
    have hany : s.any (fun r => r.1 == card.name) = JsonFileStore.hasAgent s card.name :=
      (lookup_isSome_eq_any s card.name).symm
    cases hs : JsonFileStore.hasAgent s card.name with
    | true =>
      simp [JsonFileStore.step, SqliteStore.step, JsonFileStore.createAgent,
        SqliteStore.createAgent, hs, hany]
    | false =>
      simp [JsonFileStore.step, SqliteStore.step, JsonFileStore.createAgent,
        SqliteStore.createAgent, JsonFileStore.mapSet, hs, hany]
  | get name =>
    rfl
  | replace name card =>
    cases hs : JsonFileStore.hasAgent s name with
    | true =>
      have hcount : ¬(s.countP (fun r => r.1 == name) = 0) := by
        rw [countP_key_eq_zero_iff]
        intro hnone
        rw [JsonFileStore.hasAgent, hnone] at hs
        cases hs
      simp [JsonFileStore.step, SqliteStore.step, JsonFileStore.updateAgent,
        SqliteStore.updateAgent, JsonFileStore.mapSet, hs, hcount]
    | false =>
      have hnone : s.lookup name = none := by
        rw [JsonFileStore.hasAgent] at hs
        exact Option.not_isSome_iff_eq_none.mp (by rw [hs]; exact Bool.false_ne_true)
      have hcount : s.countP (fun r => r.1 == name) = 0 :=
        (countP_key_eq_zero_iff s name).mpr hnone
      simp [JsonFileStore.step, SqliteStore.step, JsonFileStore.updateAgent,
        SqliteStore.updateAgent, hs, hcount]
  | delete name =>
    cases hs : JsonFileStore.hasAgent s name with
    | true =>
      have hcount : ¬(s.countP (fun r => r.1 == name) = 0) := by
        rw [countP_key_eq_zero_iff]
        intro hnone
        rw [JsonFileStore.hasAgent, hnone] at hs
        cases hs
      simp [JsonFileStore.step, SqliteStore.step, JsonFileStore.deleteAgent,
        SqliteStore.deleteAgent, hs, Nat.pos_of_ne_zero hcount]
    | false =>
      have hnone : s.lookup name = none := by
        rw [JsonFileStore.hasAgent] at hs
        exact Option.not_isSome_iff_eq_none.mp (by rw [hs]; exact Bool.false_ne_true)
      have hcount : s.countP (fun r => r.1 == name) = 0 :=
        (countP_key_eq_zero_iff s name).mpr hnone
      simp [JsonFileStore.step, SqliteStore.step, JsonFileStore.deleteAgent,
        SqliteStore.deleteAgent, hs, hcount, filter_ne_of_absent s name hnone]

/-- From the same rows, whole runs agree, outcomes and final states both. -/
theorem run_agree : ∀ (ops : List StoreOp) (s : Agents),
    JsonFileStore.run s ops = SqliteStore.run s ops := by
  intro ops
  induction ops with
  | nil => intro s; rfl
  | cons op ops ih =>
    intro s
    simp only [JsonFileStore.run, SqliteStore.run, step_agree s op, ih]

/-- Bridge between the code's trailing-slash test (`endsWith "/"`, i.e. a
suffix match) and the spec-side reading (the last character is `/`). -/
theorem jsEndsWith_slash (u : String) :
    jsEndsWith u "/" = (u.data.getLast? == some '/') := by
  rw [jsEndsWith]
  show List.isPrefixOf ['/'] u.data.reverse = (u.data.getLast? == some '/')
  rw [← List.head?_reverse]
  cases u.data.reverse with
  | nil => rfl
  | cons c cs =>
    show ( '/' == c && List.isPrefixOf [] cs) = (some c == some '/')
    simp [List.isPrefixOf, eq_comm]

/-- C1 (amended: the `.json` test reads the whole URL string, not only its
path).  The resolved fetch URL follows the URL Resolution Rule: a URL
ending in `.json` is fetched unchanged; otherwise exactly one trailing `/`
is stripped if present and `/.well-known/agent-card.json` is appended, with
no other part of the URL altered — together with the spec's four literal
examples. -/
theorem determineAgentCardUrl_follows_resolution_rule :
    (∀ u : String, determineAgentCardUrl u = resolveRuleSpec u) ∧
    determineAgentCardUrl "https://example.com" =
      "https://example.com/.well-known/agent-card.json" ∧
    determineAgentCardUrl "https://example.com/my-agent" =
      "https://example.com/my-agent/.well-known/agent-card.json" ∧
    determineAgentCardUrl "https://example.com/my-agent/" =
      "https://example.com/my-agent/.well-known/agent-card.json" ∧
    determineAgentCardUrl "https://cdn.example.com/agent.json" =
      "https://cdn.example.com/agent.json" := by
  refine ⟨fun u => ?_, rfl, rfl, rfl, rfl⟩
  rw [determineAgentCardUrl, resolveRuleSpec, replaceTrailingSlash, jsEndsWith_slash]

/-- C1 counterexample to the claim as stated: for
`https://example.com/agent.json?v=2` the URL's path is `/agent.json`, which
ends with `.json`, yet the resolved fetch URL is not the input unchanged
(the code tests the whole string, whose last characters are `?v=2`). -/
theorem determineAgentCardUrl_path_json_counterexample :
    jsEndsWith (urlPath "https://example.com/agent.json?v=2") ".json" = true ∧
    determineAgentCardUrl "https://example.com/agent.json?v=2" ≠
      "https://example.com/agent.json?v=2" :=
  ⟨rfl, by decide⟩

/-- C2: the two generations of `validateAgentCard` disagree on
`capabilities`.  The second generation behaves as the claim states —
an array is rejected with a message naming `capabilities`, a non-null
non-array object is accepted — while the first generation does the
opposite: it accepts the array document and rejects the object one with
`capabilities must be an array` (its check sits in the source's
`// Array validations` block, against the repository's own `AgentCard`
type, whose `capabilities` is an object). -/
theorem gen1_capabilities_array_divergence :
    Gen1.validateAgentCard docCapsArray = .ok () ∧
    Gen2.validateAgentCard docCapsArray = .error "capabilities must be an object" ∧
    Gen1.validateAgentCard (docNamed "test-agent") =
      .error "capabilities must be an array" ∧
    Gen2.validateAgentCard (docNamed "test-agent") = .ok () :=
  ⟨rfl, rfl, rfl, rfl⟩

/-- Decomposes a successful `Except` bind into its two successful parts. -/
theorem exceptBind_ok {ε α β : Type} {x : Except ε α} {f : α → Except ε β} {b : β}
    (h : x >>= f = .ok b) : ∃ a, x = .ok a ∧ f a = .ok b := by
  cases x with
  | error e => simp [Bind.bind, Except.bind] at h
  | ok a => exact ⟨a, rfl, by simpa [Bind.bind, Except.bind] using h⟩

/-- C9 (amended: an authority is not required).  The validator accepts a
document's `url` field only if it is a string the WHATWG URL parser accepts,
and such a string must carry a scheme — but need not carry an authority
(see the counterexample: `mailto:user@example.com` is accepted). -/
theorem validator_url_scheme_required (d : Json) (sample : String)
    (h : Gen2.validateAgentCard d = .ok ()) :
    (∃ u, jsGet d "url" = some (.str u) ∧ isValidUrl u = true) ∧
    (isValidUrl sample = true →
      (schemeSplit (urlPreprocess sample.data)).isSome = true) := by
  constructor
  · rw [Gen2.validateAgentCard] at h
    obtain ⟨_, _, h⟩ := exceptBind_ok h
    obtain ⟨_, _, h⟩ := exceptBind_ok h
    obtain ⟨_, _, h⟩ := exceptBind_ok h
    obtain ⟨_, _, h⟩ := exceptBind_ok h
    obtain ⟨_, hurl, _⟩ := exceptBind_ok h
    rw [checkUrl] at hurl
    rcases hg : jsGet d "url" with _ | j
    · rw [hg] at hurl
      cases hurl
    · rw [hg] at hurl
      cases j with
      | str u =>
        cases hv : isValidUrl u with
        | true => exact ⟨u, rfl, hv⟩
        | false => simp [hv] at hurl
      | null => cases hurl
      | bool b => cases hurl
      | num n => cases hurl
      | arr es => cases hurl
      | obj fs => cases hurl
  · intro hv
    simp only [isValidUrl, newUrlOk] at hv
    rcases hs : schemeSplit (urlPreprocess sample.data) with _ | p
    · rw [hs] at hv
      cases hv
    · rfl

/-- C9 counterexample to the claim as stated: `mailto:user@example.com`
has no authority component, yet the validator accepts the document — the
WHATWG parser (and hence `isValidUrl`) requires no authority for
non-special schemes, so validation does not fail naming `url`. -/
theorem isValidUrl_mailto_accepted_counterexample :
    jsGet docMailto "url" = some (.str "mailto:user@example.com") ∧
    urlHasAuthority "mailto:user@example.com" = false ∧
    Gen2.validateAgentCard docMailto = .ok () :=
  ⟨rfl, rfl, rfl⟩

/-- C9 witness: the amended theorem applied to a concrete accepted document
and to the concrete authority-less URL string. -/
theorem validator_url_scheme_required_witness :
    (∃ u, jsGet (docNamed "alpha") "url" = some (.str u) ∧ isValidUrl u = true) ∧
    (isValidUrl "mailto:user@example.com" = true →
      (schemeSplit (urlPreprocess ("mailto:user@example.com").data)).isSome = true) :=
  validator_url_scheme_required (docNamed "alpha") "mailto:user@example.com" rfl

/-- Mapping the value at one key leaves the key list unchanged. -/
theorem keysOf_map_set (s : Agents) (k : String) (c : AgentCard) :
    keysOf (s.map (fun p => if p.1 == k then (p.1, c) else p)) = keysOf s := by
  simp only [keysOf, List.map_map]
  congr 1
  funext p
  by_cases hc : (p.1 == k) = true
  · simp [Function.comp, hc]
  · simp [Function.comp, hc]

/-- An absent key is not among the stored keys. -/
theorem not_mem_keysOf_of_absent (s : Agents) (k : String)
    (h : s.lookup k = none) : k ∉ keysOf s := by
  rw [lookup_none_iff] at h
  intro hk
  obtain ⟨p, hp, hpk⟩ := List.mem_map.mp hk
  exact h p hp hpk

/-- A step of the file-backed store preserves distinctness of the keys:
creation appends only an absent key, replacement rewrites values in place,
deletion only removes rows. -/
theorem nodup_step_file (s : Agents) (op : StoreOp)
    (hn : (keysOf s).Nodup) : (keysOf (JsonFileStore.step s op).2).Nodup := by
  cases op with
  | create card =>
    cases hs : JsonFileStore.hasAgent s card.name with
    | true =>
      simpa [JsonFileStore.step, JsonFileStore.createAgent, hs] using hn
    | false =>
      have hnone : s.lookup card.name = none := by
        rw [JsonFileStore.hasAgent] at hs
        exact Option.not_isSome_iff_eq_none.mp (by simp [hs])
      simp only [JsonFileStore.step, JsonFileStore.createAgent, hs,
        JsonFileStore.mapSet, Bool.false_eq_true, if_false, keysOf, List.map_append]
      rw [List.nodup_append]
      refine ⟨hn, List.nodup_singleton _, ?_⟩
      intro a ha hb
      rw [List.map_singleton, List.mem_singleton] at hb
      subst hb
      exact not_mem_keysOf_of_absent s card.name hnone ha
  | get name => exact hn
  | replace name card =>
    cases hs : JsonFileStore.hasAgent s name with
    | true =>
      have hstate : (JsonFileStore.step s (StoreOp.replace name card)).2 =
          s.map (fun p => if p.1 == name then (p.1, card) else p) := by
        simp [JsonFileStore.step, JsonFileStore.updateAgent, hs, JsonFileStore.mapSet]
      rw [hstate, keysOf_map_set]
      exact hn
    | false =>
      simpa [JsonFileStore.step, JsonFileStore.updateAgent, hs] using hn
  | delete name =>
    cases hs : JsonFileStore.hasAgent s name with
    | true =>
      simp only [JsonFileStore.step, JsonFileStore.deleteAgent, hs,
        Bool.not_true, Bool.false_eq_true, if_false]
      exact List.Nodup.sublist (List.Sublist.map _ (List.filter_sublist s)) hn
    | false =>
      simpa [JsonFileStore.step, JsonFileStore.deleteAgent, hs] using hn

/-- C3: when `update(name, url)` finds the agent, re-fetches a document
that passes validation but whose `name` field differs from `name`, the call
fails with `InvalidAgentCardError` (the exact source message) and the
backend state — hence the document stored under `name` — is exactly what it
was before: the rejection happens before any write, over any `Store`
implementation, fetch environment and state. -/
theorem updateAgent_name_mismatch_rejected {σ : Type} (impl : StoreImpl σ)
    (env : FetchEnv) (s : σ) (name : String) (url : Option String)
    (existing : AgentCard) (data : Json)
    (hget : impl.getAgent s name = some existing)
    (hfetch : env (determineAgentCardUrl (url.getD existing.url)) = .ok data)
    (hvalid : Gen2.validateAgentCard data = .ok ())
    (hname : cardNameOf data ≠ name) :
    AgentService.updateAgent impl env s name url =
      (.error (.invalidCard ("Cannot update agent \x27" ++ name ++
        "\x27: fetched AgentCard has different name \x27" ++
        cardNameOf data ++ "\x27")),
       s, [determineAgentCardUrl (url.getD existing.url)]) := by
  simp only [AgentService.updateAgent, hget, AgentService.fetchAgentCard,
    hfetch, hvalid, mkAgentCard]
  rw [if_pos hname]

/-- C3 witness: a store holding `alpha`, an environment serving a valid
document named `beta`. -/
theorem updateAgent_name_mismatch_rejected_witness :
    AgentService.updateAgent fileImpl (fun _ => .ok (docNamed "beta"))
      storeAlpha "alpha" none =
      (.error (.invalidCard
         "Cannot update agent \x27alpha\x27: fetched AgentCard has different name \x27beta\x27"),
       storeAlpha, ["https://example.com/agents/.well-known/agent-card.json"]) :=
  updateAgent_name_mismatch_rejected fileImpl (fun _ => .ok (docNamed "beta"))
    storeAlpha "alpha" none cardAlpha (docNamed "beta") rfl rfl rfl (by decide)

/-- C8: `update(name, url)` for an absent name returns the absent result at
once — the backend state is returned untouched (no write) and the list of
fetched URLs is empty (no fetch, hence nothing to validate) — over any
`Store` implementation, fetch environment and state. -/
theorem updateAgent_absent_no_fetch {σ : Type} (impl : StoreImpl σ)
    (env : FetchEnv) (s : σ) (name : String) (url : Option String)
    (h : impl.getAgent s name = none) :
    AgentService.updateAgent impl env s name url = (.ok none, s, []) := by
  simp only [AgentService.updateAgent, h]

/-- C8 witness: an empty store and an environment that would fail any
fetch, with and without a caller-supplied URL the call never uses. -/
theorem updateAgent_absent_no_fetch_witness :
    AgentService.updateAgent fileImpl (fun _ => .error "connection refused")
      ([] : Agents) "ghost" (some "https://example.com") =
      (.ok none, ([] : Agents), []) :=
  updateAgent_absent_no_fetch fileImpl (fun _ => .error "connection refused")
    [] "ghost" (some "https://example.com") rfl

/-- C4: creating a document whose name is already stored fails with the
distinct `AlreadyExists` error and leaves the rows untouched, in both
implementations; and every operation of either backend preserves
distinctness of the stored names, so each name maps to at most one
document at all times. -/
theorem createAgent_existing_name_fails (s : Agents) (D : AgentCard)
    (op : StoreOp) (h : (JsonFileStore.getAgent s D.name).isSome = true) :
    JsonFileStore.createAgent s D = (.error (.alreadyExists D.name), s) ∧
    SqliteStore.createAgent s D = (.error (.alreadyExists D.name), s) ∧
    ((keysOf s).Nodup → (keysOf (JsonFileStore.step s op).2).Nodup) ∧
    ((keysOf s).Nodup → (keysOf (SqliteStore.step s op).2).Nodup) := by
  have hfile : JsonFileStore.hasAgent s D.name = true := h
  have hany : s.any (fun r => r.1 == D.name) = true := by
    rw [← lookup_isSome_eq_any]
    exact h
  refine ⟨?_, ?_, nodup_step_file s op, ?_⟩
  · simp [JsonFileStore.createAgent, hfile]
  · simp [SqliteStore.createAgent, hany]
  · rw [← step_agree]
    exact nodup_step_file s op

/-- C4 witness: the store holding `alpha` and a fresh document with the
same name; the invariant part instanced at a delete step. -/
theorem createAgent_existing_name_fails_witness :
    JsonFileStore.createAgent storeAlpha cardAlpha =
      (.error (.alreadyExists "alpha"), storeAlpha) ∧
    SqliteStore.createAgent storeAlpha cardAlpha =
      (.error (.alreadyExists "alpha"), storeAlpha) ∧
    ((keysOf storeAlpha).Nodup →
      (keysOf (JsonFileStore.step storeAlpha (.delete "alpha")).2).Nodup) ∧
    ((keysOf storeAlpha).Nodup →
      (keysOf (SqliteStore.step storeAlpha (.delete "alpha")).2).Nodup) :=
  createAgent_existing_name_fails storeAlpha cardAlpha (.delete "alpha") rfl

/-- C5: creating a valid document under a fresh name succeeds and a
following `get` of that name returns the very same document (deep equality
is equality of the stored value: the file backend returns the mapped value
itself, and the database backend's serialise/parse round-trip is the
identity on JSON values), in both implementations. -/
theorem create_then_get_roundtrip (s : Agents) (D : AgentCard)
    (h : JsonFileStore.getAgent s D.name = none) :
    (JsonFileStore.createAgent s D).1 = .ok D ∧
    JsonFileStore.getAgent (JsonFileStore.createAgent s D).2 D.name = some D ∧
    (SqliteStore.createAgent s D).1 = .ok D ∧
    SqliteStore.getAgent (SqliteStore.createAgent s D).2 D.name = some D := by
  rw [JsonFileStore.getAgent] at h
  have hfalse : JsonFileStore.hasAgent s D.name = false := by
    rw [JsonFileStore.hasAgent, h]
    rfl
  have hany : s.any (fun r => r.1 == D.name) = false := by
    rw [← lookup_isSome_eq_any, h]
    rfl
  refine ⟨?_, ?_, ?_, ?_⟩
  · simp [JsonFileStore.createAgent, hfalse]
  · simp only [JsonFileStore.createAgent, JsonFileStore.mapSet, hfalse,
      Bool.false_eq_true, if_false, JsonFileStore.getAgent]
    exact lookup_append_single_self s D.name D h
  · simp [SqliteStore.createAgent, hany]
  · simp only [SqliteStore.createAgent, hany, Bool.false_eq_true, if_false,
      SqliteStore.getAgent]
    exact lookup_append_single_self s D.name D h

/-- C5 witness: creating `alpha` in the empty store and reading it back, in
both implementations. -/
theorem create_then_get_roundtrip_witness :
    (JsonFileStore.createAgent [] cardAlpha).1 = .ok cardAlpha ∧
    JsonFileStore.getAgent (JsonFileStore.createAgent [] cardAlpha).2 "alpha" =
      some cardAlpha ∧
    (SqliteStore.createAgent [] cardAlpha).1 = .ok cardAlpha ∧
    SqliteStore.getAgent (SqliteStore.createAgent [] cardAlpha).2 "alpha" =
      some cardAlpha :=
  create_then_get_roundtrip [] cardAlpha rfl

/-- C6: from the empty state, a fixed sequence of create/get/replace/delete
operations produces identical outcomes at every step in the two
implementations: the same success/`AlreadyExists` from create, the same
presence from get and replace, the same boolean from delete (`list()` is
excluded, its ordering being unspecified). -/
theorem backends_equivalent_outcomes (ops : List StoreOp) :
    (JsonFileStore.run [] ops).1 = (SqliteStore.run [] ops).1 := by
  rw [run_agree]

/-- C7: deleting an absent name returns `false` and leaves the rows exactly
as they were (and raises nothing — both models' delete is total); after a
successful create of that name, two consecutive deletes report `true` then
`false`, in both implementations. -/
theorem deleteAgent_idempotent_report (s : Agents) (N : String) (D : AgentCard)
    (habs : JsonFileStore.getAgent s N = none) (hname : D.name = N) :
    JsonFileStore.deleteAgent s N = (false, s) ∧
    SqliteStore.deleteAgent s N = (false, s) ∧
    (JsonFileStore.deleteAgent (JsonFileStore.createAgent s D).2 N).1 = true ∧
    (JsonFileStore.deleteAgent
      (JsonFileStore.deleteAgent (JsonFileStore.createAgent s D).2 N).2 N).1 = false ∧
    (SqliteStore.deleteAgent (SqliteStore.createAgent s D).2 N).1 = true ∧
    (SqliteStore.deleteAgent
      (SqliteStore.deleteAgent (SqliteStore.createAgent s D).2 N).2 N).1 = false := by
  subst hname
  rw [JsonFileStore.getAgent] at habs
  have hfalse : JsonFileStore.hasAgent s D.name = false := by
    rw [JsonFileStore.hasAgent, habs]
    rfl
  have hany : s.any (fun r => r.1 == D.name) = false := by
    rw [← lookup_isSome_eq_any, habs]
    rfl
  have hcount0 : s.countP (fun r => r.1 == D.name) = 0 :=
    (countP_key_eq_zero_iff s D.name).mpr habs
  have hfilter : s.filter (fun p => !(p.1 == D.name)) = s :=
    filter_ne_of_absent s D.name habs
  have happend : (s ++ [(D.name, D)]).lookup D.name = some D :=
    lookup_append_single_self s D.name D habs
  have hfilter1 : (s ++ [(D.name, D)]).filter (fun p => !(p.1 == D.name)) = s := by
    rw [List.filter_append, hfilter]
    simp
  have hsf : (JsonFileStore.createAgent s D).2 = s ++ [(D.name, D)] := by
    simp [JsonFileStore.createAgent, JsonFileStore.mapSet, hfalse]
  have hsq : (SqliteStore.createAgent s D).2 = s ++ [(D.name, D)] := by
    simp [SqliteStore.createAgent, hany]
  have hcount1 : (s ++ [(D.name, D)]).countP (fun r => r.1 == D.name) = 1 := by
    rw [List.countP_append, hcount0]
    simp
  have hdelFile : JsonFileStore.deleteAgent (JsonFileStore.createAgent s D).2 D.name =
      (true, s) := by
    rw [hsf]
    simp [JsonFileStore.deleteAgent, JsonFileStore.hasAgent, happend, hfilter1]
  have hdelSql : SqliteStore.deleteAgent (SqliteStore.createAgent s D).2 D.name =
      (true, s) := by
    rw [hsq]
    simp [SqliteStore.deleteAgent, hcount1, hfilter1]
  refine ⟨?_, ?_, ?_, ?_, ?_, ?_⟩
  · simp [JsonFileStore.deleteAgent, hfalse]
  · simp [SqliteStore.deleteAgent, hcount0, hfilter]
  · rw [hdelFile]
  · rw [hdelFile]
    simp [JsonFileStore.deleteAgent, hfalse]
  · rw [hdelSql]
  · rw [hdelSql]
    simp [SqliteStore.deleteAgent, hcount0]

/-- C7 witness: the empty store, the name `alpha` and the concrete card. -/
theorem deleteAgent_idempotent_report_witness :
    JsonFileStore.deleteAgent [] "alpha" = (false, []) ∧
    SqliteStore.deleteAgent [] "alpha" = (false, []) ∧
    (JsonFileStore.deleteAgent (JsonFileStore.createAgent [] cardAlpha).2 "alpha").1 = true ∧
    (JsonFileStore.deleteAgent
      (JsonFileStore.deleteAgent (JsonFileStore.createAgent [] cardAlpha).2 "alpha").2
      "alpha").1 = false ∧
    (SqliteStore.deleteAgent (SqliteStore.createAgent [] cardAlpha).2 "alpha").1 = true ∧
    (SqliteStore.deleteAgent
      (SqliteStore.deleteAgent (SqliteStore.createAgent [] cardAlpha).2 "alpha").2
      "alpha").1 = false :=
  deleteAgent_idempotent_report [] "alpha" cardAlpha rfl rfl

/-- C10: a mutating operation — create, replace or delete — leaves `get`
of every other name exactly as before, in both implementations: mutations
touch only the entry for their own key (`D.name` for create, `N`
otherwise). -/
theorem mutations_frame_other_names (s : Agents) (D : AgentCard) (N M : String)
    (hc : M ≠ D.name) (hn : M ≠ N) :
    JsonFileStore.getAgent (JsonFileStore.createAgent s D).2 M =
      JsonFileStore.getAgent s M ∧
    JsonFileStore.getAgent (JsonFileStore.updateAgent s N D).2 M =
      JsonFileStore.getAgent s M ∧
    JsonFileStore.getAgent (JsonFileStore.deleteAgent s N).2 M =
      JsonFileStore.getAgent s M ∧
    SqliteStore.getAgent (SqliteStore.createAgent s D).2 M =
      SqliteStore.getAgent s M ∧
    SqliteStore.getAgent (SqliteStore.updateAgent s N D).2 M =
      SqliteStore.getAgent s M ∧
    SqliteStore.getAgent (SqliteStore.deleteAgent s N).2 M =
      SqliteStore.getAgent s M := by
  refine ⟨?_, ?_, ?_, ?_, ?_, ?_⟩
  · cases hs : JsonFileStore.hasAgent s D.name with
    | true => simp [JsonFileStore.createAgent, hs]
    | false =>
      simp only [JsonFileStore.createAgent, hs, Bool.false_eq_true, if_false,
        JsonFileStore.mapSet, JsonFileStore.getAgent]
      exact lookup_append_single_ne s D.name M D hc
  · cases hs : JsonFileStore.hasAgent s N with
    | true =>
      simp only [JsonFileStore.updateAgent, hs, Bool.not_true,
        Bool.false_eq_true, if_false, JsonFileStore.mapSet,
        JsonFileStore.getAgent]
      exact lookup_map_set_ne s N M D hn
    | false => simp [JsonFileStore.updateAgent, hs]
  · cases hs : JsonFileStore.hasAgent s N with
    | true =>
      simp only [JsonFileStore.deleteAgent, hs, Bool.not_true,
        Bool.false_eq_true, if_false, JsonFileStore.getAgent]
      exact lookup_filter_ne s N M hn
    | false => simp [JsonFileStore.deleteAgent, hs]
  · cases hs : s.any (fun r => r.1 == D.name) with
    | true => simp [SqliteStore.createAgent, hs]
    | false =>
      simp only [SqliteStore.createAgent, hs, Bool.false_eq_true, if_false,
        SqliteStore.getAgent]
      exact lookup_append_single_ne s D.name M D hc
  · cases hz : (s.countP (fun r => r.1 == N) == 0) with
    | true => simp [SqliteStore.updateAgent, hz]
    | false =>
      simp only [SqliteStore.updateAgent, hz, Bool.false_eq_true, if_false,
        SqliteStore.getAgent]
      exact lookup_map_set_ne s N M D hn
  · simp only [SqliteStore.deleteAgent, SqliteStore.getAgent]
    exact lookup_filter_ne s N M hn

/-- C10 witness: a store holding `alpha`, mutations keyed by `beta`
(create) and `alpha` (replace/delete), observed at the unrelated name
`gamma`. -/
theorem mutations_frame_other_names_witness :
    JsonFileStore.getAgent (JsonFileStore.createAgent storeAlpha cardBeta).2 "gamma" =
      JsonFileStore.getAgent storeAlpha "gamma" ∧
    JsonFileStore.getAgent (JsonFileStore.updateAgent storeAlpha "alpha" cardBeta).2 "gamma" =
      JsonFileStore.getAgent storeAlpha "gamma" ∧
    JsonFileStore.getAgent (JsonFileStore.deleteAgent storeAlpha "alpha").2 "gamma" =
      JsonFileStore.getAgent storeAlpha "gamma" ∧
    SqliteStore.getAgent (SqliteStore.createAgent storeAlpha cardBeta).2 "gamma" =
      SqliteStore.getAgent storeAlpha "gamma" ∧
    SqliteStore.getAgent (SqliteStore.updateAgent storeAlpha "alpha" cardBeta).2 "gamma" =
      SqliteStore.getAgent storeAlpha "gamma" ∧
    SqliteStore.getAgent (SqliteStore.deleteAgent storeAlpha "alpha").2 "gamma" =
      SqliteStore.getAgent storeAlpha "gamma" :=
  mutations_frame_other_names storeAlpha cardBeta "alpha" "gamma"
    (by decide) (by decide)
